import Mathlib

/-!
Shallow embedding of the LINE chat-bot webhook bridge (`src/index.js`).

The repository ships two variants of the same bot in one file:
an online variant (OpenAI embeddings + chat completion, "v2") and an
offline variant (local lexical FAQ retrieval, "v2.5").  Both share the
text normalizer, conversation memory, handoff keyword detection and the
overall event-handler shape.

Modelling conventions:
* JS strings are Lean `String`s; character-level operations work on
  `String.data : List Char`.
* JS numbers are `ℚ` for the offline lexical scores (exact small
  fractions) and `ℝ` for the online cosine-similarity scores (which use
  `Math.sqrt`).
* External collaborators (LINE reply API, OpenAI completion/embedding,
  handoff webhook) are oracle parameters; a `Bool`/`Option` result models
  success vs. a thrown failure.
* Each event handler returns the ordered list of observable actions it
  performed (log appends, memory pushes, reply sends, notifications,
  collaborator calls) together with the updated conversation memory;
  the handler is a total function, mirroring the top-level `try/catch`
  that prevents any exception from escaping `handleEvent`.
-/

/-- Unicode code points removed by `cleanInput`'s regex
`/[​-‍﻿]/g` (zero-width space/non-joiner/joiner, BOM). -/
def isZeroWidth (c : Char) : Bool :=
  (0x200B ≤ c.toNat && c.toNat ≤ 0x200D) || c.toNat == 0xFEFF

/-- JavaScript whitespace (the `\s` class / `String.prototype.trim` set):
ASCII whitespace, NBSP, Ogham space, the Zs range U+2000–U+200A, line and
paragraph separators, narrow and math spaces, ideographic space, BOM. -/
def isJsSpace (c : Char) : Bool :=
  c.toNat == 0x9 || c.toNat == 0xA || c.toNat == 0xB || c.toNat == 0xC ||
  c.toNat == 0xD || c.toNat == 0x20 || c.toNat == 0xA0 || c.toNat == 0x1680 ||
  (0x2000 ≤ c.toNat && c.toNat ≤ 0x200A) ||
  c.toNat == 0x2028 || c.toNat == 0x2029 || c.toNat == 0x202F ||
  c.toNat == 0x205F || c.toNat == 0x3000 || c.toNat == 0xFEFF

/-- `String.prototype.trim`: drop leading and trailing whitespace. -/
def trimChars (l : List Char) : List Char :=
  ((l.dropWhile isJsSpace).reverse.dropWhile isJsSpace).reverse

/-- `cleanInput` from `src/index.js` (identical in both variants):
`(text || '').replace(/[​-‍﻿]/g, '').slice(0, 2000).trim()`.
`none` models a null/undefined argument. -/
def cleanInputChars (text : Option (List Char)) : List Char :=
  trimChars (((text.getD []).filter (fun c => !isZeroWidth c)).take 2000)

/-- `cleanInput` on `String`s. -/
def cleanInput (text : Option String) : String :=
  ⟨cleanInputChars (text.map String.data)⟩

/-- `l₁` occurs as a leading segment of `l₂`. -/
def hasLeading : List Char → List Char → Bool
  | [], _ => true
  | _ :: _, [] => false
  | a :: as, b :: bs => a == b && hasLeading as bs

/-- `needle` occurs contiguously inside `hay` (substring test; models a
regex-alternation match of a literal keyword). -/
def hasSubstring (needle : List Char) : List Char → Bool
  | [] => hasLeading needle []
  | c :: cs => hasLeading needle (c :: cs) || hasSubstring needle cs

/-- The human-assistance keywords of
`/人工客服|真人客服|真人|請打給我|業務聯絡|電話|聯絡我|找人員/i`. -/
def handoffKeywords : List String :=
  ["人工客服", "真人客服", "真人", "請打給我", "業務聯絡", "電話", "聯絡我", "找人員"]

/-- `handoffNeeded` from `src/index.js`: the text matches the keyword
alternation (the `i` flag is vacuous on these CJK literals). -/
def handoffNeeded (text : String) : Bool :=
  handoffKeywords.any (fun kw => hasSubstring kw.data text.data)

/-- The characters the offline tokenizer's `/[^\p{L}\p{N}]+/gu` keeps:
letters and numbers.  Restricted to the scripts present in this
repository's data: ASCII letters and digits plus CJK unified ideographs. -/
def isLN (c : Char) : Bool :=
  c.isAlpha || c.isDigit || (0x4E00 ≤ c.toNat && c.toNat ≤ 0x9FFF)

/-- Split a character list into the maximal runs satisfying `p`
(the accumulator holds the current run, reversed). -/
def splitRunsAux (p : Char → Bool) : List Char → List Char → List (List Char)
  | [], acc => if acc.isEmpty then [] else [acc.reverse]
  | c :: cs, acc =>
    if p c then splitRunsAux p cs (c :: acc)
    else if acc.isEmpty then splitRunsAux p cs []
    else acc.reverse :: splitRunsAux p cs []

/-- The word tokens of `tokenize`:
`s.toLowerCase().replace(/[^\p{L}\p{N}]+/gu, ' ').split(/\s+/).filter(Boolean)`. -/
def enTokens (s : List Char) : List String :=
  (splitRunsAux isLN (s.map Char.toLower) []).map (fun cs => String.mk cs)

/-- The per-character tokens of `tokenize`:
`[...(s || '').replace(/\s+/g, '')]` — every non-whitespace character,
punctuation included, as a one-character token. -/
def zhTokens (s : List Char) : List String :=
  (s.filter (fun c => !isJsSpace c)).map (fun c => String.mk [c])

/-- First-occurrence deduplication, as performed by
`Array.from(new Set(list))` (JS `Set` keeps insertion order). -/
def dedupFirst : List String → List String → List String
  | [], _ => []
  | x :: xs, seen =>
    if seen.contains x then dedupFirst xs seen
    else x :: dedupFirst xs (x :: seen)

/-- `tokenize` from the offline variant: word tokens plus per-character
tokens, deduplicated keeping first occurrences. -/
def tokenize (s : String) : List String :=
  dedupFirst (enTokens s.data ++ zhTokens s.data) []

/-- The hard-coded domain keyword list of `scoreSimilarity`. -/
def bonusWords : List String :=
  ["netwrix", "endpoint", "protector", "dlp", "usb", "報價", "授權", "change",
   "tracker", "auditor", "稽核", "合規", "macos", "windows"]

/-- `scoreSimilarity` from the offline variant: Jaccard index of the two
token sets plus 0.02 for each shared domain keyword, capped at 1. -/
def scoreSimilarity (q text : String) : ℚ :=
  let qs := tokenize q
  let ts := tokenize text
  if qs.length = 0 ∨ ts.length = 0 then 0
  else
    let inter := (qs.filter (fun w => ts.contains w)).length
    let jaccard : ℚ := (inter : ℚ) / ((qs.length : ℚ) + (ts.length : ℚ) - (inter : ℚ))
    let bonus : ℚ :=
      (2 / 100) * ((bonusWords.filter (fun bw => qs.contains bw && ts.contains bw)).length : ℚ)
    min 1 (jaccard + bonus)

/-- One stored conversation turn: `{role, content, ts}`. -/
structure Turn where
  role : String
  content : String
  ts : ℕ
deriving DecidableEq

/-- The per-user conversation map: `userId ↦ [{role, content, ts}]`. -/
def Memory := String → List Turn

/-- The initial, empty conversation map. -/
def emptyMem : Memory := fun _ => []

/-- The last `n` elements of a list (JS `arr.slice(-n)` for `n > 0`). -/
def lastN (n : ℕ) (l : List α) : List α := l.drop (l.length - n)

/-- The `while (arr.length > 10) arr.shift()` loop of `pushMemory`,
with explicit structural fuel. -/
def trimFrontAux : ℕ → List Turn → List Turn
  | 0, l => l
  | n + 1, l => if 10 < l.length then trimFrontAux n l.tail else l

/-- Evict turns from the front until at most 10 remain. -/
def trimFront (l : List Turn) : List Turn := trimFrontAux l.length l

/-- `pushMemory` from `src/index.js`: append a turn for `userId`, then
evict from the front while more than 10 turns are stored. -/
def pushMemory (mem : Memory) (userId role content : String) (now : ℕ) : Memory :=
  fun u => if u = userId then trimFront (mem userId ++ [⟨role, content, now⟩]) else mem u

/-- A completion-context message `{role, content}` (no timestamp). -/
structure Msg where
  role : String
  content : String
deriving DecidableEq

/-- `getRecentMessages` from `src/index.js`:
`(memory.get(userId) || []).slice(-limit).map(x => ({role: x.role, content: x.content}))`. -/
def getRecentMessages (mem : Memory) (userId : String) (limit : ℕ) : List Msg :=
  (lastN limit (mem userId)).map (fun t => ⟨t.role, t.content⟩)

/-- An FAQ catalog entry `{q, a}`. -/
structure FaqEntry where
  q : String
  a : String
deriving DecidableEq, Inhabited

/-- An index/score pair, as built by
`faq.map((x, i) => ({i, score: ...}))`. -/
structure Scored (α : Type) where
  i : ℕ
  score : α
deriving DecidableEq

/-- A retrieval hit `{...faq[s.i], score: s.score}`. -/
structure Hit (α : Type) where
  q : String
  a : String
  score : α
deriving DecidableEq

/-- Stable descending insertion: place `x` before the first element whose
score does not exceed it.  Together with `sortDesc` this is the unique
stable sort for the comparator `(a, b) => b.score - a.score`. -/
def insertDesc [LinearOrder α] (x : Scored α) : List (Scored α) → List (Scored α)
  | [] => [x]
  | y :: ys => if y.score ≤ x.score then x :: y :: ys else y :: insertDesc x ys

/-- `scored.sort((a, b) => b.score - a.score)`: the stable descending sort
by score. -/
def sortDesc [LinearOrder α] (l : List (Scored α)) : List (Scored α) :=
  l.foldr insertDesc []

/-- The shared ranking pipeline of both retrievers, in the code's order:
sort descending, truncate to `topK`, then filter by the strict threshold
(`.sort(...).slice(0, topK).filter(s => s.score > τ)`). -/
def rank [LinearOrder α] (scored : List (Scored α)) (topK : ℕ) (τ : α) : List (Scored α) :=
  ((sortDesc scored).take topK).filter (fun s => decide (τ < s.score))

/-- The same pipeline in the spec's order: filter by the threshold first,
then truncate the (sorted) list to `topK`. -/
def rankSpecOrder [LinearOrder α] (scored : List (Scored α)) (topK : ℕ) (τ : α) :
    List (Scored α) :=
  ((sortDesc scored).filter (fun s => decide (τ < s.score))).take topK

/-- `picks.map(s => ({...faq[s.i], score: s.score}))`. -/
def toHits (faq : List FaqEntry) (l : List (Scored α)) : List (Hit α) :=
  l.map (fun s => ⟨(faq.getD s.i default).q, (faq.getD s.i default).a, s.score⟩)

/-- The per-entry scores of the offline retriever:
`faq.map((x, i) => ({i, score: scoreSimilarity(query, `${x.q}\n${x.a}`)}))`. -/
def offlineScores (faq : List FaqEntry) (query : String) : List (Scored ℚ) :=
  faq.enum.map (fun p => ⟨p.1, scoreSimilarity query (p.2.q ++ "\n" ++ p.2.a)⟩)

/-- `searchFaqLocal` from the offline variant: guard on an empty catalog,
score every entry, sort descending, truncate to `topK`, keep scores
strictly above 0.08, and attach the catalog entries. -/
def searchFaqLocal (faq : List FaqEntry) (query : String) (topK : ℕ) : List (Hit ℚ) :=
  if faq = [] then []
  else toHits faq (rank (offlineScores faq query) topK (8 / 100))

/-- `searchFaqLocal` with the spec's order of operations (filter by the
threshold, then truncate to `topK`); stated from the spec's words for the
refinement half of the retrieval contract. -/
def searchFaqLocalSpecOrder (faq : List FaqEntry) (query : String) (topK : ℕ) : List (Hit ℚ) :=
  if faq = [] then []
  else toHits faq (rankSpecOrder (offlineScores faq query) topK (8 / 100))

/-- Sum of squares of a vector (the `na`/`nb` accumulators of `cosineSim`). -/
noncomputable def sumSq (l : List ℝ) : ℝ := (l.map (fun x => x * x)).sum

/-- `cosineSim` from the online variant: the loop runs over `a`'s indices,
so `b` is truncated to `a.length`; the denominator adds `1e-9`. -/
noncomputable def cosineSim (a b : List ℝ) : ℝ :=
  (List.zipWith (fun x y => x * y) a b).sum /
    (Real.sqrt (sumSq a) * Real.sqrt (sumSq (b.take a.length)) + 1 / 1000000000)

/-- The per-entry scores of the online retriever:
`faqVectors.map((v, i) => ({i, score: cosineSim(qv, v)}))`. -/
noncomputable def onlineScores (faqVectors : List (List ℝ)) (qv : List ℝ) : List (Scored ℝ) :=
  faqVectors.enum.map (fun p => ⟨p.1, cosineSim qv p.2⟩)

/-- `searchFaq` from the online variant: guard on an empty catalog, embed
the query (an embedding failure is caught and yields no hits), score every
FAQ vector by cosine similarity, sort descending, truncate to `topK`, keep
scores strictly above 0.2, and attach the catalog entries. -/
noncomputable def searchFaq (faq : List FaqEntry) (faqVectors : List (List ℝ))
    (embedO : String → Option (List ℝ)) (query : String) (topK : ℕ) : List (Hit ℝ) :=
  if faq = [] then []
  else
    match embedO query with
    | none => []
    | some qv => toHits faq (rank (onlineScores faqVectors qv) topK (2 / 10))

/-- `searchFaq` with the spec's order of operations (filter by the
threshold, then truncate to `topK`); stated from the spec's words for the
refinement half of the retrieval contract. -/
noncomputable def searchFaqSpecOrder (faq : List FaqEntry) (faqVectors : List (List ℝ))
    (embedO : String → Option (List ℝ)) (query : String) (topK : ℕ) : List (Hit ℝ) :=
  if faq = [] then []
  else
    match embedO query with
    | none => []
    | some qv => toHits faq (rankSpecOrder (onlineScores faqVectors qv) topK (2 / 10))

/-- The fixed handoff acknowledgment reply. -/
def handoffReplyText : String :=
  "已為您安排人工客服協助，稍後將有同仁與您聯繫。若方便，請提供公司/姓名/電話。"

/-- The fixed apology sent from the outer `catch` block. -/
def apologyText : String := "抱歉，系統忙碌中，我們稍後再回覆您。"

/-- The offline variant's fixed guidance reply when no FAQ entry matches. -/
def noHitText : String :=
  "目前為離線 FAQ 模式，請嘗試關鍵詞：如「授權」「報價」「USB 加密」「Change Tracker」「Auditor 稽核」。"

/-- The online variant's system instruction. -/
def systemPromptText : String :=
  "你是專業且友善的資安客服助理，回答要精準、條列化、可操作，必要時給下一步指引。"

/-- The online variant's fallback when the completion returns no content. -/
def defaultAnswerText : String := "抱歉，我現在沒有足夠資訊回答。"

/-- `event.source?.userId || 'unknown'`: a missing or empty userId falls
back to the literal key `"unknown"`. -/
def resolveUserId (src : Option String) : String :=
  match src with
  | none => "unknown"
  | some s => if s = "" then "unknown" else s

/-- JS `String.prototype.slice(0, n)`. -/
def strTake (s : String) (n : ℕ) : String := ⟨s.data.take n⟩

/-- An incoming webhook event (the fields `handleEvent` reads). -/
structure Event where
  evType : String
  msgType : String
  text : String
  sourceUserId : Option String
deriving DecidableEq

/-- One observable action of `handleEvent`, in execution order:
inbound log append, memory push, FAQ retrieval, completion call
(`ok := false` models a thrown failure), reply send attempt
(`ok := false` models a thrown failure), handoff notification POST,
outbound log append. -/
inductive Act where
  | logIn (userId text : String) (ts : ℕ)
  | push (userId role content : String) (ts : ℕ)
  | search (query : String)
  | completion (msgs : List Msg) (ok : Bool)
  | reply (text : String) (ok : Bool)
  | notify (userId text : String) (ts : ℕ)
  | logOut (userId route text : String) (ts : ℕ)
deriving DecidableEq

/-- The offline variant's collaborators and configuration: the LINE
reply API (`true` = delivered, `false` = threw), whether
`HANDOFF_WEBHOOK_URL` is configured, and the loaded FAQ catalog. -/
structure OfflineCtx where
  send : String → Bool
  hasHandoffUrl : Bool
  faq : List FaqEntry

/-- The offline answer synthesis: `【參考回答】` + top answer + labeled
further-reading extras, truncated to 4900 characters; or the fixed
guidance message when there are no hits. -/
def offlineAnswer (hits : List (Hit ℚ)) : String :=
  match hits with
  | [] => noHitText
  | top :: rest =>
    let extras := String.join ((rest.enum.map (fun p =>
      "\n\n（延伸 #" ++ toString (p.1 + 2) ++ "）Q: " ++ p.2.q ++ "\nA: " ++ p.2.a)))
    strTake ("【參考回答】\n" ++ top.a ++ extras) 4900

/-- `handleEvent` of the offline variant (`v2.5`), as a total function
returning the ordered action trace and the updated memory.  The shape
mirrors the source: guard on text messages; inbound log and user-turn
push; handoff branch (reply, optional notification, outbound log,
assistant push); otherwise local FAQ retrieval, reply, assistant push and
outbound log.  A reply-send failure transfers control to the outer
`catch`, which attempts the fixed apology and swallows its own failure. -/
def handleEventOffline (ctx : OfflineCtx) (mem : Memory) (e : Event) (now : ℕ) :
    List Act × Memory :=
  if e.evType = "message" then
    if e.msgType = "text" then
      let u := resolveUserId e.sourceUserId
      let t := cleanInput (some e.text)
      let mem1 := pushMemory mem u "user" t now
      let a1 : List Act := [.logIn u t now, .push u "user" t now]
      if handoffNeeded t then
        if ctx.send handoffReplyText then
          (a1 ++ [.reply handoffReplyText true] ++
            (if ctx.hasHandoffUrl then [.notify u t now] else []) ++
            [.logOut u "handoff" handoffReplyText now,
             .push u "assistant" handoffReplyText now],
           pushMemory mem1 u "assistant" handoffReplyText now)
        else
          (a1 ++ [.reply handoffReplyText false, .reply apologyText (ctx.send apologyText)],
           mem1)
      else
        let hits := searchFaqLocal ctx.faq t 3
        let ans := offlineAnswer hits
        if ctx.send ans then
          (a1 ++ [.search t, .reply ans true, .push u "assistant" ans now,
                  .logOut u (if hits = [] then "nohit" else "faq-offline") ans now],
           pushMemory mem1 u "assistant" ans now)
        else
          (a1 ++ [.search t, .reply ans false, .reply apologyText (ctx.send apologyText)],
           mem1)
    else ([], mem)
  else ([], mem)

/-- The online variant's collaborators and configuration: reply API,
handoff-webhook flag, FAQ catalog with its precomputed vectors, the
embedding oracle (`none` = threw), the completion oracle (`none` = threw),
and the rendering of a score by `x.score.toFixed(2)`. -/
structure OnlineCtx where
  send : String → Bool
  hasHandoffUrl : Bool
  faq : List FaqEntry
  faqVectors : List (List ℝ)
  embedO : String → Option (List ℝ)
  complete : List Msg → Option String
  fmtScore : ℝ → String

/-- The FAQ reference block of the online prompt:
`【FAQ#n（相似度 s）】\nQ: ...\nA: ...` joined by blank lines. -/
def faqContextStr (fmt : ℝ → String) (hits : List (Hit ℝ)) : String :=
  String.intercalate "\n\n" (hits.enum.map (fun p =>
    "【FAQ#" ++ toString (p.1 + 1) ++ "（相似度 " ++ fmt p.2.score ++ "）】\nQ: " ++
      p.2.q ++ "\nA: " ++ p.2.a))

/-- The completion context of the online variant: system instruction,
recent history, the FAQ reference block when there are hits, then the
current user message. -/
def buildContext (fmt : ℝ → String) (hist : List Msg) (hits : List (Hit ℝ))
    (userText : String) : List Msg :=
  [⟨"system", systemPromptText⟩] ++ hist ++
    (if hits.isEmpty then []
     else [⟨"system", "以下為公司 FAQ 參考內容，優先使用其中事實：\n\n" ++ faqContextStr fmt hits⟩]) ++
    [⟨"user", userText⟩]

/-- `handleEvent` of the online variant (`v2`), as a total function
returning the ordered action trace and the updated memory.  After the
inbound log and user-turn push, a non-handoff message runs the semantic
FAQ retrieval, builds the completion context from the recent history
(which already contains the just-pushed user turn), calls the completion
collaborator, and replies with its answer (or the fixed default when the
content is empty), then pushes the assistant turn and appends the
outbound log.  A completion or reply failure transfers control to the
outer `catch`, which attempts the fixed apology and swallows its own
failure. -/
noncomputable def handleEventOnline (ctx : OnlineCtx) (mem : Memory) (e : Event) (now : ℕ) :
    List Act × Memory :=
  if e.evType = "message" then
    if e.msgType = "text" then
      let u := resolveUserId e.sourceUserId
      let t := cleanInput (some e.text)
      let mem1 := pushMemory mem u "user" t now
      let a1 : List Act := [.logIn u t now, .push u "user" t now]
      if handoffNeeded t then
        if ctx.send handoffReplyText then
          (a1 ++ [.reply handoffReplyText true] ++
            (if ctx.hasHandoffUrl then [.notify u t now] else []) ++
            [.logOut u "handoff" handoffReplyText now,
             .push u "assistant" handoffReplyText now],
           pushMemory mem1 u "assistant" handoffReplyText now)
        else
          (a1 ++ [.reply handoffReplyText false, .reply apologyText (ctx.send apologyText)],
           mem1)
      else
        let hits := searchFaq ctx.faq ctx.faqVectors ctx.embedO t 3
        let hist := getRecentMessages mem1 u 5
        let msgs := buildContext ctx.fmtScore hist hits t
        match ctx.complete msgs with
        | none =>
          (a1 ++ [.search t, .completion msgs false,
                  .reply apologyText (ctx.send apologyText)],
           mem1)
        | some c =>
          let ans := strTake (if c = "" then defaultAnswerText else c) 4900
          if ctx.send ans then
            (a1 ++ [.search t, .completion msgs true, .reply ans true,
                    .push u "assistant" ans now,
                    .logOut u (if hits = [] then "ai" else "faq+ai") ans now],
             pushMemory mem1 u "assistant" ans now)
          else
            (a1 ++ [.search t, .completion msgs true, .reply ans false,
                    .reply apologyText (ctx.send apologyText)],
             mem1)
    else ([], mem)
  else ([], mem)

/-- The `POST /webhook` handler of the online variant: an empty batch
returns 200 immediately; otherwise every event is dispatched to
`handleEvent` (whose own `try/catch` never lets an exception escape) and
the handler answers 200. -/
noncomputable def postWebhookOnline (ctx : OnlineCtx) (events : List Event) (mem : Memory)
    (now : ℕ) : ℕ × Memory :=
  if events = [] then (200, mem)
  else (200, events.foldl (fun m e => (handleEventOnline ctx m e now).2) mem)

/-- One `pushMemory(userId, role, content)` call with its timestamp. -/
structure PushOp where
  userId : String
  role : String
  content : String
  ts : ℕ
deriving DecidableEq

/-- The turn a push call stores. -/
def opTurn (op : PushOp) : Turn := ⟨op.role, op.content, op.ts⟩

/-- Apply one push call to the conversation map. -/
def applyPush (mem : Memory) (op : PushOp) : Memory :=
  pushMemory mem op.userId op.role op.content op.ts

/-- The conversation map after a sequence of `pushMemory` calls, starting
from the empty map. -/
def memAfter (ops : List PushOp) : Memory := ops.foldl applyPush emptyMem

/-- The turns pushed for one user, in push order. -/
def userPushes (ops : List PushOp) (u : String) : List Turn :=
  (ops.filter (fun op => op.userId == u)).map opTurn

/-- Is this action a reply-send attempt? -/
def isReplyA : Act → Bool
  | .reply _ _ => true
  | _ => false

/-- Is this action a conversation-memory push? -/
def isPushA : Act → Bool
  | .push _ _ _ _ => true
  | _ => false

/-- Is this action an inbound or outbound log append? -/
def isLogA : Act → Bool
  | .logIn _ _ _ => true
  | .logOut _ _ _ _ => true
  | _ => false

/-- Is this action an outbound log append? -/
def isLogOutA : Act → Bool
  | .logOut _ _ _ _ => true
  | _ => false

/-- Is this action an FAQ retrieval? -/
def isSearchA : Act → Bool
  | .search _ => true
  | _ => false

/-- Is this action a completion-collaborator call? -/
def isCompletionA : Act → Bool
  | .completion _ _ => true
  | _ => false

/-- Is this action a handoff-notification POST? -/
def isNotifyA : Act → Bool
  | .notify _ _ _ => true
  | _ => false

/-- The literal reading of the spec sentence "the turn pair is pushed into
Conversation Memory and a LogRecord is appended only after the reply has
been produced and sent": every memory push and log append in the trace is
preceded by some reply-send attempt. -/
def pushesAndLogsOnlyAfterReply : Bool → List Act → Bool
  | _, [] => true
  | seen, a :: rest =>
    if isPushA a || isLogA a then
      seen && pushesAndLogsOnlyAfterReply seen rest
    else
      pushesAndLogsOnlyAfterReply (seen || isReplyA a) rest

section RankLemmas

variable {α : Type} [LinearOrder α]

theorem mem_insertDesc (x z : Scored α) (l : List (Scored α)) :
    z ∈ insertDesc x l ↔ z = x ∨ z ∈ l := by
  induction l with
  | nil => simp [insertDesc]
  | cons y ys ih =>
    by_cases h : y.score ≤ x.score
    · simp [insertDesc, h]
    · simp only [insertDesc, if_neg h, List.mem_cons, ih]
      tauto

theorem pairwise_insertDesc (x : Scored α) (l : List (Scored α))
    (h : l.Pairwise (fun a b => b.score ≤ a.score)) :
    (insertDesc x l).Pairwise (fun a b => b.score ≤ a.score) := by
  induction l with
  | nil => simp [insertDesc]
  | cons y ys ih =>
    rcases List.pairwise_cons.mp h with ⟨hy, hys⟩
    by_cases hxy : y.score ≤ x.score
    · rw [insertDesc, if_pos hxy]
      refine List.pairwise_cons.mpr ⟨?_, h⟩
      intro z hz
      rcases List.mem_cons.mp hz with rfl | hz'
      · exact hxy
      · exact le_trans (hy z hz') hxy
    · rw [insertDesc, if_neg hxy]
      refine List.pairwise_cons.mpr ⟨?_, ih hys⟩
      intro z hz
      rcases (mem_insertDesc x z ys).mp hz with rfl | hz'
      · exact le_of_lt (lt_of_not_le hxy)
      · exact hy z hz'

theorem pairwise_sortDesc (l : List (Scored α)) :
    (sortDesc l).Pairwise (fun a b => b.score ≤ a.score) := by
  induction l with
  | nil => simp [sortDesc]
  | cons x xs ih => exact pairwise_insertDesc x _ ih

theorem take_filter_of_sortedDesc (τ : α) :
    ∀ (l : List (Scored α)) (k : ℕ), l.Pairwise (fun a b => b.score ≤ a.score) →
      (l.take k).filter (fun s => decide (τ < s.score)) =
        (l.filter (fun s => decide (τ < s.score))).take k := by
  intro l
  induction l with
  | nil => simp
  | cons x xs ih =>
    intro k h
    rcases List.pairwise_cons.mp h with ⟨hx, hxs⟩
    cases k with
    | zero => simp
    | succ k =>
      by_cases hp : τ < x.score
      · simp [List.take_succ_cons, List.filter_cons, hp, ih k hxs]
      · have hnil : xs.filter (fun s => decide (τ < s.score)) = [] := by
          rw [List.filter_eq_nil_iff]
          intro a ha
          simp only [decide_eq_true_eq]
          exact fun hlt => hp (lt_of_lt_of_le hlt (hx a ha))
        have hnil' : (xs.take k).filter (fun s => decide (τ < s.score)) = [] := by
          rw [List.filter_eq_nil_iff]
          intro a ha
          simp only [decide_eq_true_eq]
          intro hlt
          exact hp (lt_of_lt_of_le hlt (hx a ((List.take_sublist k xs).subset ha)))
        simp [List.take_succ_cons, List.filter_cons, hp, hnil, hnil']

theorem rank_eq_rankSpecOrder (scored : List (Scored α)) (topK : ℕ) (τ : α) :
    rank scored topK τ = rankSpecOrder scored topK τ :=
  take_filter_of_sortedDesc τ (sortDesc scored) topK (pairwise_sortDesc scored)

theorem length_rank_le (scored : List (Scored α)) (topK : ℕ) (τ : α) :
    (rank scored topK τ).length ≤ topK :=
  le_trans (List.length_filter_le _ _) (List.length_take_le _ _)

theorem pairwise_rank (scored : List (Scored α)) (topK : ℕ) (τ : α) :
    (rank scored topK τ).Pairwise (fun a b => b.score ≤ a.score) :=
  ((pairwise_sortDesc scored).sublist (List.take_sublist _ _)).sublist (List.filter_sublist _)

theorem mem_rank_gt (scored : List (Scored α)) (topK : ℕ) (τ : α) (s : Scored α)
    (hs : s ∈ rank scored topK τ) : τ < s.score := by
  have := List.of_mem_filter hs
  simpa using this

theorem length_toHits (faq : List FaqEntry) (l : List (Scored α)) :
    (toHits faq l).length = l.length := List.length_map l _

theorem pairwise_toHits (faq : List FaqEntry) (l : List (Scored α))
    (h : l.Pairwise (fun a b => b.score ≤ a.score)) :
    (toHits faq l).Pairwise (fun a b => b.score ≤ a.score) := by
  refine List.pairwise_map.mpr ?_
  exact h.imp (fun hab => hab)

theorem mem_toHits_score (faq : List FaqEntry) (l : List (Scored α)) (h : Hit α)
    (hm : h ∈ toHits faq l) : ∃ s ∈ l, h.score = s.score := by
  rcases List.mem_map.mp hm with ⟨s, hs, rfl⟩
  exact ⟨s, hs, rfl⟩

end RankLemmas

theorem toHits_rank_contract {α : Type} [LinearOrder α] (faq : List FaqEntry)
    (scored : List (Scored α)) (topK : ℕ) (τ : α) :
    (toHits faq (rank scored topK τ)).length ≤ topK ∧
      (toHits faq (rank scored topK τ)).Pairwise (fun a b => b.score ≤ a.score) ∧
      (∀ h ∈ toHits faq (rank scored topK τ), τ < h.score) ∧
      toHits faq (rank scored topK τ) = toHits faq (rankSpecOrder scored topK τ) := by
  refine ⟨?_, ?_, ?_, ?_⟩
  · rw [length_toHits]
    exact length_rank_le scored topK τ
  · exact pairwise_toHits faq _ (pairwise_rank scored topK τ)
  · intro h hm
    rcases mem_toHits_score faq _ h hm with ⟨s, hs, hscore⟩
    rw [hscore]
    exact mem_rank_gt scored topK τ s hs
  · rw [rank_eq_rankSpecOrder]

/-- C1: for every non-empty FAQ catalog and every query, both retrievers
(`searchFaqLocal` offline, `searchFaq` online) return at most `topK` hits,
sorted by non-increasing score, every hit's score strictly above the
mode's threshold (0.08 offline, 0.2 online); and the code's order of
operations (sort, truncate to `topK`, filter) returns exactly the same
list as the spec's order (filter, then truncate to `topK`). -/
theorem faq_search_contract (faq : List FaqEntry) (hne : faq ≠ []) (query : String)
    (topK : ℕ) (faqVectors : List (List ℝ)) (embedO : String → Option (List ℝ)) :
    ((searchFaqLocal faq query topK).length ≤ topK ∧
      (searchFaqLocal faq query topK).Pairwise (fun a b => b.score ≤ a.score) ∧
      (∀ h ∈ searchFaqLocal faq query topK, (8 : ℚ) / 100 < h.score) ∧
      searchFaqLocal faq query topK = searchFaqLocalSpecOrder faq query topK) ∧
    ((searchFaq faq faqVectors embedO query topK).length ≤ topK ∧
      (searchFaq faq faqVectors embedO query topK).Pairwise
        (fun a b => b.score ≤ a.score) ∧
      (∀ h ∈ searchFaq faq faqVectors embedO query topK, (2 : ℝ) / 10 < h.score) ∧
      searchFaq faq faqVectors embedO query topK =
        searchFaqSpecOrder faq faqVectors embedO query topK) := by
  constructor
  · rw [searchFaqLocal, searchFaqLocalSpecOrder, if_neg hne, if_neg hne]
    exact toHits_rank_contract faq (offlineScores faq query) topK (8 / 100)
  · rw [searchFaq, searchFaqSpecOrder, if_neg hne, if_neg hne]
    cases embedO query with
    | none => simp
    | some qv => exact toHits_rank_contract faq (onlineScores faqVectors qv) topK (2 / 10)

/-- Witness for `faq_search_contract` at a concrete one-entry catalog. -/
theorem faq_search_contract_witness :
    (searchFaqLocal [⟨"報價流程？", "請提供公司名稱、人數、需求模組…我們 1-2 個工作天回覆。"⟩]
        "請問報價流程" 3).length ≤ 3 :=
  (faq_search_contract
    [⟨"報價流程？", "請提供公司名稱、人數、需求模組…我們 1-2 個工作天回覆。"⟩]
    (by decide) "請問報價流程" 3 [] (fun _ => none)).1.1

theorem length_lastN (n : ℕ) (l : List α) : (lastN n l).length = l.length - (l.length - n) := by
  simp [lastN]

theorem length_lastN_le (n : ℕ) (l : List α) : (lastN n l).length ≤ n := by
  rw [length_lastN]
  omega

theorem lastN_of_length_le (n : ℕ) (l : List α) (h : l.length ≤ n) : lastN n l = l := by
  simp [lastN, Nat.sub_eq_zero_of_le h]

theorem lastN_lastN (a b : ℕ) (l : List α) : lastN a (lastN b l) = lastN (min a b) l := by
  simp only [lastN, List.length_drop, List.drop_drop]
  congr 1
  omega

theorem lastN_cons (n : ℕ) (x : α) (xs : List α) (h : n ≤ xs.length) :
    lastN n (x :: xs) = lastN n xs := by
  simp only [lastN, List.length_cons]
  rw [show xs.length + 1 - n = (xs.length - n) + 1 by omega, List.drop_succ_cons]

theorem trimFrontAux_eq_lastN (f : ℕ) (l : List Turn) (h : l.length ≤ f + 10) :
    trimFrontAux f l = lastN 10 l := by
  induction f generalizing l with
  | zero =>
    rw [trimFrontAux, lastN_of_length_le]
    omega
  | succ f ih =>
    rw [trimFrontAux]
    by_cases hlen : 10 < l.length
    · rw [if_pos hlen]
      cases l with
      | nil => simp at hlen
      | cons x xs =>
        simp only [List.length_cons] at hlen h
        rw [List.tail_cons, ih xs (by omega), lastN_cons 10 x xs (by omega)]
    · rw [if_neg hlen, lastN_of_length_le]
      omega

theorem trimFront_eq_lastN (l : List Turn) : trimFront l = lastN 10 l :=
  trimFrontAux_eq_lastN l.length l (by omega)

theorem lastN_eq_rtake (n : ℕ) (l : List α) : lastN n l = l.rtake n := rfl

theorem lastN_append_lastN (n : ℕ) (t r : List α) :
    lastN n (lastN n t ++ r) = lastN n (t ++ r) := by
  simp only [lastN_eq_rtake, List.rtake_eq_reverse_take_reverse, List.reverse_append,
    List.reverse_reverse, List.take_append_eq_append_take, List.take_take,
    List.length_reverse]
  rw [min_eq_left (Nat.sub_le n r.length)]

theorem pushMemory_self (mem : Memory) (u role content : String) (now : ℕ) :
    pushMemory mem u role content now u = lastN 10 (mem u ++ [⟨role, content, now⟩]) := by
  rw [pushMemory, if_pos rfl, trimFront_eq_lastN]

theorem pushMemory_other (mem : Memory) (u role content : String) (now : ℕ) (u' : String)
    (h : u' ≠ u) : pushMemory mem u role content now u' = mem u' := by
  rw [pushMemory, if_neg h]

theorem userPushes_cons (op : PushOp) (ops : List PushOp) (u : String) :
    userPushes (op :: ops) u =
      if op.userId = u then opTurn op :: userPushes ops u else userPushes ops u := by
  by_cases h : op.userId = u
  · simp [userPushes, List.filter_cons, h]
  · simp [userPushes, List.filter_cons, h]

theorem foldl_applyPush_eq (ops : List PushOp) :
    ∀ (mem : Memory) (s : String → List Turn), (∀ u, mem u = lastN 10 (s u)) →
      ∀ u, (ops.foldl applyPush mem) u = lastN 10 (s u ++ userPushes ops u) := by
  induction ops with
  | nil =>
    intro mem s h u
    simp [userPushes, h u]
  | cons op ops ih =>
    intro mem s h u
    rw [List.foldl_cons]
    have step : ∀ v, applyPush mem op v =
        lastN 10 ((if op.userId = v then s v ++ [opTurn op] else s v)) := by
      intro v
      by_cases hv : v = op.userId
      · subst hv
        show pushMemory mem op.userId op.role op.content op.ts op.userId = _
        rw [pushMemory_self, if_pos rfl, h op.userId, lastN_append_lastN]
        rfl
      · show pushMemory mem op.userId op.role op.content op.ts v = _
        rw [pushMemory_other _ _ _ _ _ _ hv, if_neg (fun hc => hv hc.symm), h v]
    rw [ih (applyPush mem op) _ step u, userPushes_cons]
    by_cases hu : op.userId = u
    · rw [if_pos hu, if_pos hu, List.append_assoc]
      rfl
    · rw [if_neg hu, if_neg hu]

theorem memAfter_eq (ops : List PushOp) (u : String) :
    memAfter ops u = lastN 10 (userPushes ops u) := by
  have := foldl_applyPush_eq ops emptyMem (fun _ => []) (fun u => by simp [emptyMem, lastN]) u
  simpa [memAfter] using this

/-- C3: the stored per-user sequence never exceeds 10 turns no matter how
many pushes happen (oldest evicted from the front), and for a user with at
least 5 stored turns `getRecentMessages(userId, 5)` returns exactly the 5
most recently pushed turns, oldest first, each reduced to
`{role, content}` without the timestamp. -/
theorem memory_bounds (ops : List PushOp) (u : String) :
    ((memAfter ops) u).length ≤ 10 ∧
      (5 ≤ (userPushes ops u).length →
        getRecentMessages (memAfter ops) u 5 =
          (lastN 5 (userPushes ops u)).map (fun t => Msg.mk t.role t.content)) := by
  constructor
  · rw [memAfter_eq]
    exact length_lastN_le 10 _
  · intro _
    rw [getRecentMessages, memAfter_eq, lastN_lastN]
    norm_num

/-- Witness for `memory_bounds`: six pushes for one user; the recent
window is the last five, oldest first, without timestamps. -/
theorem memory_bounds_witness :
    ((memAfter ((List.range 6).map (fun i => ⟨"u", "user", toString i, i⟩))) "u").length ≤ 10 ∧
      getRecentMessages
          (memAfter ((List.range 6).map (fun i => ⟨"u", "user", toString i, i⟩))) "u" 5 =
        (lastN 5 (userPushes ((List.range 6).map (fun i => ⟨"u", "user", toString i, i⟩)) "u")).map
          (fun t => Msg.mk t.role t.content) :=
  ⟨(memory_bounds _ "u").1, (memory_bounds _ "u").2 (by decide)⟩

theorem takeWhile_dropWhile_nil (p : α → Bool) (l : List α) :
    (l.dropWhile p).takeWhile p = [] := by
  induction l with
  | nil => rfl
  | cons x xs ih =>
    by_cases h : p x
    · rw [List.dropWhile_cons_of_pos h]
      exact ih
    · rw [List.dropWhile_cons_of_neg h, List.takeWhile_cons_of_neg h]

theorem takeWhile_nil_of_takeWhile_nil_append (p : α → Bool) (l₁ l₂ : List α)
    (h : (l₁ ++ l₂).takeWhile p = []) : l₁.takeWhile p = [] := by
  cases l₁ with
  | nil => rfl
  | cons x xs =>
    rw [List.cons_append] at h
    by_cases hx : p x
    · rw [List.takeWhile_cons_of_pos hx] at h
      exact absurd h (by simp)
    · rw [List.takeWhile_cons_of_neg hx]

theorem trimChars_takeWhile (l : List Char) : (trimChars l).takeWhile isJsSpace = [] := by
  rw [trimChars]
  have hpre : ((l.dropWhile isJsSpace).reverse.dropWhile isJsSpace).reverse <+:
      l.dropWhile isJsSpace := by
    rw [← List.reverse_suffix, List.reverse_reverse]
    exact List.dropWhile_suffix isJsSpace
  rcases hpre with ⟨tl, htl⟩
  exact takeWhile_nil_of_takeWhile_nil_append isJsSpace _ tl
    (by rw [htl]; exact takeWhile_dropWhile_nil isJsSpace l)

theorem trimChars_reverse_takeWhile (l : List Char) :
    (trimChars l).reverse.takeWhile isJsSpace = [] := by
  rw [trimChars, List.reverse_reverse]
  exact takeWhile_dropWhile_nil isJsSpace _

theorem trimChars_sublist (l : List Char) : (trimChars l).Sublist l := by
  rw [trimChars]
  have h1 : ((l.dropWhile isJsSpace).reverse.dropWhile isJsSpace).reverse.Sublist
      (l.dropWhile isJsSpace) := by
    have := (List.dropWhile_suffix (l := (l.dropWhile isJsSpace).reverse) isJsSpace).sublist
    have h2 := this.reverse
    rwa [List.reverse_reverse] at h2
  exact h1.trans (List.dropWhile_suffix isJsSpace).sublist

/-- C6: for every input (a missing/null text is treated as empty),
`cleanInput` returns at most 2000 characters, none of them zero-width,
with no leading or trailing whitespace; it is total, and empty input
yields empty output. -/
theorem cleanInput_contract (text : Option String) :
    (cleanInput text).data.length ≤ 2000 ∧
      (cleanInput text).data.filter isZeroWidth = [] ∧
      (cleanInput text).data.takeWhile isJsSpace = [] ∧
      (cleanInput text).data.reverse.takeWhile isJsSpace = [] ∧
      cleanInput none = "" ∧ cleanInput (some "") = "" := by
  have hdata : (cleanInput text).data = cleanInputChars (text.map String.data) := rfl
  refine ⟨?_, ?_, ?_, ?_, rfl, rfl⟩
  · rw [hdata, cleanInputChars]
    exact le_trans (List.Sublist.length_le (trimChars_sublist _)) (List.length_take_le _ _)
  · rw [hdata, cleanInputChars, List.filter_eq_nil_iff]
    intro c hc
    have hc2 : c ∈ ((text.map String.data).getD []).filter (fun c => !isZeroWidth c) :=
      ((trimChars_sublist _).trans (List.take_sublist _ _)).subset hc
    have := List.of_mem_filter hc2
    simpa using this
  · rw [hdata, cleanInputChars]
    exact trimChars_takeWhile _
  · rw [hdata, cleanInputChars]
    exact trimChars_reverse_takeWhile _

theorem zipWith_mul_self (a : List ℝ) :
    List.zipWith (fun x y => x * y) a a = a.map (fun x => x * x) := by
  induction a with
  | nil => rfl
  | cons x xs ih => simp [ih]

/-- C7 counterexample: on the zero vector, `cosineSim(a, a)` is `0`, not
`1.0` — the `+1e-9` in the denominator makes the quotient `0/1e-9`.  So
"for every vector `a`, `cosineSim(a, a)` equals 1.0 within floating-point
epsilon" is false at `a = [0]`: the deviation from 1 is exactly 1. -/
theorem cosineSim_self_zero_vector :
    cosineSim [(0 : ℝ)] [(0 : ℝ)] = 0 ∧ |cosineSim [(0 : ℝ)] [(0 : ℝ)] - 1| = 1 := by
  have h : cosineSim [(0 : ℝ)] [(0 : ℝ)] = 0 := by
    rw [cosineSim]
    simp [sumSq]
  exact ⟨h, by rw [h]; norm_num⟩

/-- C7 amended: for every vector whose sum of squares is at least 1,
`cosineSim(a, a)` equals 1 within `1e-9` (the deviation introduced by the
implementation's `+1e-9` denominator term); and for equal-length vectors
cosine similarity is symmetric. -/
theorem cosineSim_contract :
    (∀ a : List ℝ, 1 ≤ sumSq a → |cosineSim a a - 1| ≤ 1 / 1000000000) ∧
      (∀ a b : List ℝ, a.length = b.length → cosineSim a b = cosineSim b a) := by
  constructor
  · intro a ha
    have h0 : (0 : ℝ) ≤ sumSq a := le_trans zero_le_one ha
    have htake : a.take a.length = a := List.take_length a
    rw [cosineSim, htake, zipWith_mul_self]
    have hsum : (a.map (fun x => x * x)).sum = sumSq a := rfl
    rw [hsum, Real.mul_self_sqrt h0]
    have hpos : (0 : ℝ) < sumSq a + 1 / 1000000000 := by linarith
    have hrw : sumSq a / (sumSq a + 1 / 1000000000) - 1 =
        -(1 / 1000000000) / (sumSq a + 1 / 1000000000) := by
      field_simp
    rw [hrw, abs_div, abs_neg, abs_of_pos hpos,
      abs_of_pos (by norm_num : (0 : ℝ) < 1 / 1000000000)]
    rw [div_le_iff hpos]
    nlinarith
  · intro a b hlen
    rw [cosineSim, cosineSim]
    rw [List.zipWith_comm_of_comm _ mul_comm a b]
    rw [hlen, List.take_length, ← hlen, List.take_length, mul_comm (Real.sqrt (sumSq b))]

/-- Witness for `cosineSim_contract` at concrete vectors. -/
theorem cosineSim_contract_witness :
    |cosineSim [(1 : ℝ)] [(1 : ℝ)] - 1| ≤ 1 / 1000000000 ∧
      cosineSim [(1 : ℝ), 2] [(3 : ℝ), 4] = cosineSim [(3 : ℝ), 4] [(1 : ℝ), 2] :=
  ⟨cosineSim_contract.1 [1] (by simp [sumSq]), cosineSim_contract.2 _ _ (by simp)⟩

section HandlerShapes

variable (octx : OfflineCtx) (nctx : OnlineCtx) (mem : Memory) (e : Event) (now : ℕ)

theorem handleEventOffline_handoff_ok
    (h1 : e.evType = "message") (h2 : e.msgType = "text")
    (hh : handoffNeeded (cleanInput (some e.text)) = true)
    (hs : octx.send handoffReplyText = true) :
    handleEventOffline octx mem e now =
      ([.logIn (resolveUserId e.sourceUserId) (cleanInput (some e.text)) now,
        .push (resolveUserId e.sourceUserId) "user" (cleanInput (some e.text)) now,
        .reply handoffReplyText true] ++
        (if octx.hasHandoffUrl then
          [.notify (resolveUserId e.sourceUserId) (cleanInput (some e.text)) now] else []) ++
        [.logOut (resolveUserId e.sourceUserId) "handoff" handoffReplyText now,
         .push (resolveUserId e.sourceUserId) "assistant" handoffReplyText now],
       pushMemory
         (pushMemory mem (resolveUserId e.sourceUserId) "user" (cleanInput (some e.text)) now)
         (resolveUserId e.sourceUserId) "assistant" handoffReplyText now) := by
  simp [handleEventOffline, h1, h2, hh, hs]

theorem handleEventOffline_handoff_fail
    (h1 : e.evType = "message") (h2 : e.msgType = "text")
    (hh : handoffNeeded (cleanInput (some e.text)) = true)
    (hs : octx.send handoffReplyText = false) :
    handleEventOffline octx mem e now =
      ([.logIn (resolveUserId e.sourceUserId) (cleanInput (some e.text)) now,
        .push (resolveUserId e.sourceUserId) "user" (cleanInput (some e.text)) now,
        .reply handoffReplyText false, .reply apologyText (octx.send apologyText)],
       pushMemory mem (resolveUserId e.sourceUserId) "user" (cleanInput (some e.text)) now) := by
  simp [handleEventOffline, h1, h2, hh, hs]

theorem handleEventOffline_faq_ok
    (h1 : e.evType = "message") (h2 : e.msgType = "text")
    (hh : handoffNeeded (cleanInput (some e.text)) = false)
    (hs : octx.send (offlineAnswer (searchFaqLocal octx.faq (cleanInput (some e.text)) 3)) =
      true) :
    handleEventOffline octx mem e now =
      ([.logIn (resolveUserId e.sourceUserId) (cleanInput (some e.text)) now,
        .push (resolveUserId e.sourceUserId) "user" (cleanInput (some e.text)) now,
        .search (cleanInput (some e.text)),
        .reply (offlineAnswer (searchFaqLocal octx.faq (cleanInput (some e.text)) 3)) true,
        .push (resolveUserId e.sourceUserId) "assistant"
          (offlineAnswer (searchFaqLocal octx.faq (cleanInput (some e.text)) 3)) now,
        .logOut (resolveUserId e.sourceUserId)
          (if searchFaqLocal octx.faq (cleanInput (some e.text)) 3 = [] then "nohit"
           else "faq-offline")
          (offlineAnswer (searchFaqLocal octx.faq (cleanInput (some e.text)) 3)) now],
       pushMemory
         (pushMemory mem (resolveUserId e.sourceUserId) "user" (cleanInput (some e.text)) now)
         (resolveUserId e.sourceUserId) "assistant"
         (offlineAnswer (searchFaqLocal octx.faq (cleanInput (some e.text)) 3)) now) := by
  simp [handleEventOffline, h1, h2, hh, hs]

theorem handleEventOffline_faq_fail
    (h1 : e.evType = "message") (h2 : e.msgType = "text")
    (hh : handoffNeeded (cleanInput (some e.text)) = false)
    (hs : octx.send (offlineAnswer (searchFaqLocal octx.faq (cleanInput (some e.text)) 3)) =
      false) :
    handleEventOffline octx mem e now =
      ([.logIn (resolveUserId e.sourceUserId) (cleanInput (some e.text)) now,
        .push (resolveUserId e.sourceUserId) "user" (cleanInput (some e.text)) now,
        .search (cleanInput (some e.text)),
        .reply (offlineAnswer (searchFaqLocal octx.faq (cleanInput (some e.text)) 3)) false,
        .reply apologyText (octx.send apologyText)],
       pushMemory mem (resolveUserId e.sourceUserId) "user" (cleanInput (some e.text)) now) := by
  simp [handleEventOffline, h1, h2, hh, hs]

end HandlerShapes

/-- The completion context the online handler builds for a non-handoff
text message: system prompt, recent history (the user turn has already
been pushed), FAQ block when there are hits, current user message. -/
noncomputable def onlineMsgs (nctx : OnlineCtx) (mem : Memory) (e : Event) (now : ℕ) :
    List Msg :=
  buildContext nctx.fmtScore
    (getRecentMessages
      (pushMemory mem (resolveUserId e.sourceUserId) "user" (cleanInput (some e.text)) now)
      (resolveUserId e.sourceUserId) 5)
    (searchFaq nctx.faq nctx.faqVectors nctx.embedO (cleanInput (some e.text)) 3)
    (cleanInput (some e.text))

section OnlineShapes

variable (nctx : OnlineCtx) (mem : Memory) (e : Event) (now : ℕ)

theorem handleEventOnline_handoff_ok
    (h1 : e.evType = "message") (h2 : e.msgType = "text")
    (hh : handoffNeeded (cleanInput (some e.text)) = true)
    (hs : nctx.send handoffReplyText = true) :
    handleEventOnline nctx mem e now =
      ([.logIn (resolveUserId e.sourceUserId) (cleanInput (some e.text)) now,
        .push (resolveUserId e.sourceUserId) "user" (cleanInput (some e.text)) now,
        .reply handoffReplyText true] ++
        (if nctx.hasHandoffUrl then
          [.notify (resolveUserId e.sourceUserId) (cleanInput (some e.text)) now] else []) ++
        [.logOut (resolveUserId e.sourceUserId) "handoff" handoffReplyText now,
         .push (resolveUserId e.sourceUserId) "assistant" handoffReplyText now],
       pushMemory
         (pushMemory mem (resolveUserId e.sourceUserId) "user" (cleanInput (some e.text)) now)
         (resolveUserId e.sourceUserId) "assistant" handoffReplyText now) := by
  simp [handleEventOnline, h1, h2, hh, hs]

theorem handleEventOnline_handoff_fail
    (h1 : e.evType = "message") (h2 : e.msgType = "text")
    (hh : handoffNeeded (cleanInput (some e.text)) = true)
    (hs : nctx.send handoffReplyText = false) :
    handleEventOnline nctx mem e now =
      ([.logIn (resolveUserId e.sourceUserId) (cleanInput (some e.text)) now,
        .push (resolveUserId e.sourceUserId) "user" (cleanInput (some e.text)) now,
        .reply handoffReplyText false, .reply apologyText (nctx.send apologyText)],
       pushMemory mem (resolveUserId e.sourceUserId) "user" (cleanInput (some e.text)) now) := by
  simp [handleEventOnline, h1, h2, hh, hs]

theorem handleEventOnline_complete_none
    (h1 : e.evType = "message") (h2 : e.msgType = "text")
    (hh : handoffNeeded (cleanInput (some e.text)) = false)
    (hc : nctx.complete (onlineMsgs nctx mem e now) = none) :
    handleEventOnline nctx mem e now =
      ([.logIn (resolveUserId e.sourceUserId) (cleanInput (some e.text)) now,
        .push (resolveUserId e.sourceUserId) "user" (cleanInput (some e.text)) now,
        .search (cleanInput (some e.text)),
        .completion (onlineMsgs nctx mem e now) false,
        .reply apologyText (nctx.send apologyText)],
       pushMemory mem (resolveUserId e.sourceUserId) "user" (cleanInput (some e.text)) now) := by
  rw [onlineMsgs] at hc
  simp [handleEventOnline, h1, h2, hh, hc, onlineMsgs]

theorem handleEventOnline_complete_some_ok (c : String)
    (h1 : e.evType = "message") (h2 : e.msgType = "text")
    (hh : handoffNeeded (cleanInput (some e.text)) = false)
    (hc : nctx.complete (onlineMsgs nctx mem e now) = some c)
    (hs : nctx.send (strTake (if c = "" then defaultAnswerText else c) 4900) = true) :
    handleEventOnline nctx mem e now =
      ([.logIn (resolveUserId e.sourceUserId) (cleanInput (some e.text)) now,
        .push (resolveUserId e.sourceUserId) "user" (cleanInput (some e.text)) now,
        .search (cleanInput (some e.text)),
        .completion (onlineMsgs nctx mem e now) true,
        .reply (strTake (if c = "" then defaultAnswerText else c) 4900) true,
        .push (resolveUserId e.sourceUserId) "assistant"
          (strTake (if c = "" then defaultAnswerText else c) 4900) now,
        .logOut (resolveUserId e.sourceUserId)
          (if searchFaq nctx.faq nctx.faqVectors nctx.embedO (cleanInput (some e.text)) 3 = []
           then "ai" else "faq+ai")
          (strTake (if c = "" then defaultAnswerText else c) 4900) now],
       pushMemory
         (pushMemory mem (resolveUserId e.sourceUserId) "user" (cleanInput (some e.text)) now)
         (resolveUserId e.sourceUserId) "assistant"
         (strTake (if c = "" then defaultAnswerText else c) 4900) now) := by
  rw [onlineMsgs] at hc
  simp [handleEventOnline, h1, h2, hh, hc, hs, onlineMsgs]

theorem handleEventOnline_complete_some_fail (c : String)
    (h1 : e.evType = "message") (h2 : e.msgType = "text")
    (hh : handoffNeeded (cleanInput (some e.text)) = false)
    (hc : nctx.complete (onlineMsgs nctx mem e now) = some c)
    (hs : nctx.send (strTake (if c = "" then defaultAnswerText else c) 4900) = false) :
    handleEventOnline nctx mem e now =
      ([.logIn (resolveUserId e.sourceUserId) (cleanInput (some e.text)) now,
        .push (resolveUserId e.sourceUserId) "user" (cleanInput (some e.text)) now,
        .search (cleanInput (some e.text)),
        .completion (onlineMsgs nctx mem e now) true,
        .reply (strTake (if c = "" then defaultAnswerText else c) 4900) false,
        .reply apologyText (nctx.send apologyText)],
       pushMemory mem (resolveUserId e.sourceUserId) "user" (cleanInput (some e.text)) now) := by
  rw [onlineMsgs] at hc
  simp [handleEventOnline, h1, h2, hh, hc, hs, onlineMsgs]

end OnlineShapes

/-- C2 counterexample: at a concrete text-message event, the trace of the
offline handler violates the claim's ordering — the inbound `LogRecord`
and the user half of the turn pair are recorded *before* the reply is
sent, so it is false that memory pushes and log appends happen only after
the reply. -/
theorem reply_order_claim_counterexample :
    pushesAndLogsOnlyAfterReply false
        (handleEventOffline ⟨fun _ => true, false, []⟩ emptyMem
          ⟨"message", "text", "hello", some "U1"⟩ 0).1 = false ∧
      (handleEventOffline ⟨fun _ => true, false, []⟩ emptyMem
          ⟨"message", "text", "hello", some "U1"⟩ 0).1.take 2 =
        [.logIn "U1" "hello" 0, .push "U1" "user" "hello" 0] := by
  constructor
  · decide
  · decide

/-- C2 amended: in both variants, every handled text-message event's trace
starts with the inbound log append and the user-turn push (these happen
*before* the reply), then a reply attempt always occurs, and no memory
push or log append happens between those first two records and the first
reply attempt — in particular the assistant half of the turn pair and the
outbound `LogRecord` are recorded only after the reply. -/
theorem reply_before_assistant_records (octx : OfflineCtx) (nctx : OnlineCtx)
    (mem mem' : Memory) (e : Event) (now : ℕ)
    (h1 : e.evType = "message") (h2 : e.msgType = "text") :
    (∃ mid, (handleEventOffline octx mem e now).1 =
        .logIn (resolveUserId e.sourceUserId) (cleanInput (some e.text)) now ::
          .push (resolveUserId e.sourceUserId) "user" (cleanInput (some e.text)) now :: mid ∧
        ((mid.takeWhile (fun a => !isReplyA a)).all
          (fun a => !isPushA a && !isLogA a)) = true ∧
        mid.any isReplyA = true) ∧
    (∃ mid, (handleEventOnline nctx mem' e now).1 =
        .logIn (resolveUserId e.sourceUserId) (cleanInput (some e.text)) now ::
          .push (resolveUserId e.sourceUserId) "user" (cleanInput (some e.text)) now :: mid ∧
        ((mid.takeWhile (fun a => !isReplyA a)).all
          (fun a => !isPushA a && !isLogA a)) = true ∧
        mid.any isReplyA = true) := by
  constructor
  · cases hh : handoffNeeded (cleanInput (some e.text)) with
    | true =>
      cases hs : octx.send handoffReplyText with
      | true =>
        refine ⟨[.reply handoffReplyText true] ++
          (if octx.hasHandoffUrl then
            [.notify (resolveUserId e.sourceUserId) (cleanInput (some e.text)) now] else []) ++
          [.logOut (resolveUserId e.sourceUserId) "handoff" handoffReplyText now,
           .push (resolveUserId e.sourceUserId) "assistant" handoffReplyText now], ?_, ?_, ?_⟩
        · rw [handleEventOffline_handoff_ok octx mem e now h1 h2 hh hs]
          simp
        · simp [isReplyA]
        · simp [isReplyA]
      | false =>
        refine ⟨[.reply handoffReplyText false, .reply apologyText (octx.send apologyText)],
          ?_, ?_, ?_⟩
        · rw [handleEventOffline_handoff_fail octx mem e now h1 h2 hh hs]
        · simp [isReplyA]
        · simp [isReplyA]
    | false =>
      cases hs : octx.send (offlineAnswer (searchFaqLocal octx.faq (cleanInput (some e.text)) 3))
        with
      | true =>
        refine ⟨[.search (cleanInput (some e.text)),
          .reply (offlineAnswer (searchFaqLocal octx.faq (cleanInput (some e.text)) 3)) true,
          .push (resolveUserId e.sourceUserId) "assistant"
            (offlineAnswer (searchFaqLocal octx.faq (cleanInput (some e.text)) 3)) now,
          .logOut (resolveUserId e.sourceUserId)
            (if searchFaqLocal octx.faq (cleanInput (some e.text)) 3 = [] then "nohit"
             else "faq-offline")
            (offlineAnswer (searchFaqLocal octx.faq (cleanInput (some e.text)) 3)) now],
          ?_, ?_, ?_⟩
        · rw [handleEventOffline_faq_ok octx mem e now h1 h2 hh hs]
        · simp [isReplyA, isPushA, isLogA, isSearchA]
        · simp [isReplyA]
      | false =>
        refine ⟨[.search (cleanInput (some e.text)),
          .reply (offlineAnswer (searchFaqLocal octx.faq (cleanInput (some e.text)) 3)) false,
          .reply apologyText (octx.send apologyText)], ?_, ?_, ?_⟩
        · rw [handleEventOffline_faq_fail octx mem e now h1 h2 hh hs]
        · simp [isReplyA, isPushA, isLogA]
        · simp [isReplyA]
  · cases hh : handoffNeeded (cleanInput (some e.text)) with
    | true =>
      cases hs : nctx.send handoffReplyText with
      | true =>
        refine ⟨[.reply handoffReplyText true] ++
          (if nctx.hasHandoffUrl then
            [.notify (resolveUserId e.sourceUserId) (cleanInput (some e.text)) now] else []) ++
          [.logOut (resolveUserId e.sourceUserId) "handoff" handoffReplyText now,
           .push (resolveUserId e.sourceUserId) "assistant" handoffReplyText now], ?_, ?_, ?_⟩
        · rw [handleEventOnline_handoff_ok nctx mem' e now h1 h2 hh hs]
          simp
        · simp [isReplyA]
        · simp [isReplyA]
      | false =>
        refine ⟨[.reply handoffReplyText false, .reply apologyText (nctx.send apologyText)],
          ?_, ?_, ?_⟩
        · rw [handleEventOnline_handoff_fail nctx mem' e now h1 h2 hh hs]
        · simp [isReplyA]
        · simp [isReplyA]
    | false =>
      cases hc : nctx.complete (onlineMsgs nctx mem' e now) with
      | none =>
        refine ⟨[.search (cleanInput (some e.text)),
          .completion (onlineMsgs nctx mem' e now) false,
          .reply apologyText (nctx.send apologyText)], ?_, ?_, ?_⟩
        · rw [handleEventOnline_complete_none nctx mem' e now h1 h2 hh hc]
        · simp [isReplyA, isPushA, isLogA, isCompletionA]
        · simp [isReplyA]
      | some c =>
        cases hs : nctx.send (strTake (if c = "" then defaultAnswerText else c) 4900) with
        | true =>
          refine ⟨[.search (cleanInput (some e.text)),
            .completion (onlineMsgs nctx mem' e now) true,
            .reply (strTake (if c = "" then defaultAnswerText else c) 4900) true,
            .push (resolveUserId e.sourceUserId) "assistant"
              (strTake (if c = "" then defaultAnswerText else c) 4900) now,
            .logOut (resolveUserId e.sourceUserId)
              (if searchFaq nctx.faq nctx.faqVectors nctx.embedO (cleanInput (some e.text)) 3
                  = [] then "ai" else "faq+ai")
              (strTake (if c = "" then defaultAnswerText else c) 4900) now], ?_, ?_, ?_⟩
          · rw [handleEventOnline_complete_some_ok nctx mem' e now c h1 h2 hh hc hs]
          · simp [isReplyA, isPushA, isLogA]
          · simp [isReplyA]
        | false =>
          refine ⟨[.search (cleanInput (some e.text)),
            .completion (onlineMsgs nctx mem' e now) true,
            .reply (strTake (if c = "" then defaultAnswerText else c) 4900) false,
            .reply apologyText (nctx.send apologyText)], ?_, ?_, ?_⟩
          · rw [handleEventOnline_complete_some_fail nctx mem' e now c h1 h2 hh hc hs]
          · simp [isReplyA, isPushA, isLogA]
          · simp [isReplyA]

/-- Witness for `reply_before_assistant_records` at a concrete event. -/
theorem reply_before_assistant_records_witness :
    ∃ mid, (handleEventOffline ⟨fun _ => true, false, []⟩ emptyMem
        ⟨"message", "text", "hi", some "U"⟩ 0).1 =
      .logIn (resolveUserId (some "U")) (cleanInput (some "hi")) 0 ::
        .push (resolveUserId (some "U")) "user" (cleanInput (some "hi")) 0 :: mid ∧
      ((mid.takeWhile (fun a => !isReplyA a)).all
        (fun a => !isPushA a && !isLogA a)) = true ∧
      mid.any isReplyA = true :=
  (reply_before_assistant_records ⟨fun _ => true, false, []⟩
    ⟨fun _ => true, false, [], [], fun _ => none, fun _ => some "ok", fun _ => ""⟩
    emptyMem emptyMem ⟨"message", "text", "hi", some "U"⟩ 0 rfl rfl).1

/-- C4: when the normalized text matches a human-assistance keyword, both
variants reply with the fixed handoff acknowledgment right after the
inbound log and user push, never invoke the FAQ retriever or the
completion collaborator, attempt no notification before the reply, and
attempt no notification at all when the reply send failed (the
notification comes only after a sent reply). -/
theorem handoff_priority (octx : OfflineCtx) (nctx : OnlineCtx) (mem mem' : Memory)
    (e : Event) (now : ℕ)
    (h1 : e.evType = "message") (h2 : e.msgType = "text")
    (hh : handoffNeeded (cleanInput (some e.text)) = true) :
    ((handleEventOffline octx mem e now).1.take 3 =
        [.logIn (resolveUserId e.sourceUserId) (cleanInput (some e.text)) now,
         .push (resolveUserId e.sourceUserId) "user" (cleanInput (some e.text)) now,
         .reply handoffReplyText (octx.send handoffReplyText)] ∧
      (handleEventOffline octx mem e now).1.all
        (fun a => !isSearchA a && !isCompletionA a) = true ∧
      ((handleEventOffline octx mem e now).1.takeWhile (fun a => !isReplyA a)).all
        (fun a => !isNotifyA a) = true ∧
      (octx.send handoffReplyText = false →
        (handleEventOffline octx mem e now).1.all (fun a => !isNotifyA a) = true)) ∧
    ((handleEventOnline nctx mem' e now).1.take 3 =
        [.logIn (resolveUserId e.sourceUserId) (cleanInput (some e.text)) now,
         .push (resolveUserId e.sourceUserId) "user" (cleanInput (some e.text)) now,
         .reply handoffReplyText (nctx.send handoffReplyText)] ∧
      (handleEventOnline nctx mem' e now).1.all
        (fun a => !isSearchA a && !isCompletionA a) = true ∧
      ((handleEventOnline nctx mem' e now).1.takeWhile (fun a => !isReplyA a)).all
        (fun a => !isNotifyA a) = true ∧
      (nctx.send handoffReplyText = false →
        (handleEventOnline nctx mem' e now).1.all (fun a => !isNotifyA a) = true)) := by
  constructor
  · cases hs : octx.send handoffReplyText with
    | true =>
      rw [handleEventOffline_handoff_ok octx mem e now h1 h2 hh hs]
      cases hu : octx.hasHandoffUrl with
      | true =>
        refine ⟨by simp, by simp [isSearchA, isCompletionA], by simp [isReplyA, isNotifyA],
          by simp [hs]⟩
      | false =>
        refine ⟨by simp, by simp [isSearchA, isCompletionA], by simp [isReplyA, isNotifyA],
          by simp [hs]⟩
    | false =>
      rw [handleEventOffline_handoff_fail octx mem e now h1 h2 hh hs]
      exact ⟨by simp, by simp [isSearchA, isCompletionA], by simp [isReplyA, isNotifyA],
        by simp [isNotifyA]⟩
  · cases hs : nctx.send handoffReplyText with
    | true =>
      rw [handleEventOnline_handoff_ok nctx mem' e now h1 h2 hh hs]
      cases hu : nctx.hasHandoffUrl with
      | true =>
        refine ⟨by simp, by simp [isSearchA, isCompletionA], by simp [isReplyA, isNotifyA],
          by simp [hs]⟩
      | false =>
        refine ⟨by simp, by simp [isSearchA, isCompletionA], by simp [isReplyA, isNotifyA],
          by simp [hs]⟩
    | false =>
      rw [handleEventOnline_handoff_fail nctx mem' e now h1 h2 hh hs]
      exact ⟨by simp, by simp [isSearchA, isCompletionA], by simp [isReplyA, isNotifyA],
        by simp [isNotifyA]⟩

/-- Witness for `handoff_priority`: the message `"真人"` matches a handoff
keyword; the offline handler's trace never invokes the retriever. -/
theorem handoff_priority_witness :
    (handleEventOffline ⟨fun _ => true, true, [⟨"q", "a"⟩]⟩ emptyMem
        ⟨"message", "text", "真人", some "U"⟩ 0).1.all
      (fun a => !isSearchA a && !isCompletionA a) = true :=
  (handoff_priority ⟨fun _ => true, true, [⟨"q", "a"⟩]⟩
    ⟨fun _ => true, true, [], [], fun _ => none, fun _ => some "ok", fun _ => ""⟩
    emptyMem emptyMem ⟨"message", "text", "真人", some "U"⟩ 0 rfl rfl (by decide)).1.2.1

/-- C5: when the completion collaborator fails on every request, the
handler's final action for a (non-handoff) text-message event is the
attempt to send the fixed apology — recorded whether or not that fallback
send itself succeeds, since the catch swallows its failure — the memory
keeps only the already-pushed user turn, and the handler being a total
function, the webhook POST for the batch still answers 200. -/
theorem completion_failure_handling (nctx : OnlineCtx) (mem : Memory) (e : Event) (now : ℕ)
    (h1 : e.evType = "message") (h2 : e.msgType = "text")
    (hh : handoffNeeded (cleanInput (some e.text)) = false)
    (hfail : ∀ msgs, nctx.complete msgs = none) :
    (handleEventOnline nctx mem e now).1.getLast? =
        some (.reply apologyText (nctx.send apologyText)) ∧
      (handleEventOnline nctx mem e now).2 =
        pushMemory mem (resolveUserId e.sourceUserId) "user" (cleanInput (some e.text)) now ∧
      (postWebhookOnline nctx [e] mem now).1 = 200 := by
  rw [handleEventOnline_complete_none nctx mem e now h1 h2 hh (hfail _)]
  refine ⟨by simp, rfl, ?_⟩
  rw [postWebhookOnline, if_neg (by simp)]

/-- Witness for `completion_failure_handling` at a concrete event and an
always-failing completion collaborator. -/
theorem completion_failure_handling_witness :
    (handleEventOnline ⟨fun _ => true, false, [], [], fun _ => none, fun _ => none, fun _ => ""⟩
        emptyMem ⟨"message", "text", "hi", some "U"⟩ 0).1.getLast? =
      some (.reply apologyText true) :=
  (completion_failure_handling
    ⟨fun _ => true, false, [], [], fun _ => none, fun _ => none, fun _ => ""⟩
    emptyMem ⟨"message", "text", "hi", some "U"⟩ 0 rfl rfl (by decide) (fun _ => rfl)).1

theorem getLast?_lastN_concat (n : ℕ) (A : List α) (x : α) :
    (lastN (n + 1) (A ++ [x])).getLast? = some x := by
  rw [lastN_eq_rtake, List.rtake_concat_succ]
  exact List.getLast?_concat _

theorem mem_of_getLast?_eq (l : List α) (a : α) (h : l.getLast? = some a) : a ∈ l := by
  rcases List.mem_getLast?_eq_getLast (l := l) (x := a) h with ⟨hne, rfl⟩
  exact List.getLast_mem hne

theorem getRecent_push_getLast (mem : Memory) (u role content : String) (now : ℕ) :
    (getRecentMessages (pushMemory mem u role content now) u 5).getLast? =
      some ⟨role, content⟩ := by
  rw [getRecentMessages, pushMemory_self, lastN_lastN, List.getLast?_map]
  have h5 : min 5 10 = 5 := rfl
  rw [h5]
  have hl := getLast?_lastN_concat 4 (mem u) (⟨role, content, now⟩ : Turn)
  norm_num at hl
  rw [hl]
  rfl

/-- C9: in the online variant, because the user turn is pushed into memory
*before* the completion context is built, the messages array handed to the
completion collaborator contains the current user message at least twice —
once as the last element of the recent-history slice and once as the final
explicit user message. -/
theorem context_contains_user_twice (nctx : OnlineCtx) (mem : Memory) (e : Event) (now : ℕ)
    (h1 : e.evType = "message") (h2 : e.msgType = "text")
    (hh : handoffNeeded (cleanInput (some e.text)) = false) :
    (∃ ok, Act.completion (onlineMsgs nctx mem e now) ok ∈
        (handleEventOnline nctx mem e now).1) ∧
      ∃ hist mid, onlineMsgs nctx mem e now =
          ⟨"system", systemPromptText⟩ :: (hist ++ (mid ++ [⟨"user", cleanInput (some e.text)⟩])) ∧
        hist.getLast? = some ⟨"user", cleanInput (some e.text)⟩ ∧
        2 ≤ (onlineMsgs nctx mem e now).count ⟨"user", cleanInput (some e.text)⟩ := by
  have hlast := getRecent_push_getLast mem (resolveUserId e.sourceUserId) "user"
    (cleanInput (some e.text)) now
  have hstruct : onlineMsgs nctx mem e now =
      ⟨"system", systemPromptText⟩ ::
        (getRecentMessages
          (pushMemory mem (resolveUserId e.sourceUserId) "user" (cleanInput (some e.text)) now)
          (resolveUserId e.sourceUserId) 5 ++
        ((if (searchFaq nctx.faq nctx.faqVectors nctx.embedO (cleanInput (some e.text)) 3).isEmpty
          then []
          else [⟨"system", "以下為公司 FAQ 參考內容，優先使用其中事實：\n\n" ++
            faqContextStr nctx.fmtScore
              (searchFaq nctx.faq nctx.faqVectors nctx.embedO (cleanInput (some e.text)) 3)⟩]) ++
          [⟨"user", cleanInput (some e.text)⟩])) := by
    rw [onlineMsgs, buildContext]
    simp
  refine ⟨?_, ?_⟩
  · cases hc : nctx.complete (onlineMsgs nctx mem e now) with
    | none =>
      refine ⟨false, ?_⟩
      rw [handleEventOnline_complete_none nctx mem e now h1 h2 hh hc]
      simp
    | some c =>
      refine ⟨true, ?_⟩
      cases hs : nctx.send (strTake (if c = "" then defaultAnswerText else c) 4900) with
      | true =>
        rw [handleEventOnline_complete_some_ok nctx mem e now c h1 h2 hh hc hs]
        simp
      | false =>
        rw [handleEventOnline_complete_some_fail nctx mem e now c h1 h2 hh hc hs]
        simp
  · refine ⟨_, _, hstruct, hlast, ?_⟩
    have hmem : (⟨"user", cleanInput (some e.text)⟩ : Msg) ∈
        getRecentMessages
          (pushMemory mem (resolveUserId e.sourceUserId) "user" (cleanInput (some e.text)) now)
          (resolveUserId e.sourceUserId) 5 :=
      mem_of_getLast?_eq _ _ hlast
    have hcount : 1 ≤ (getRecentMessages
        (pushMemory mem (resolveUserId e.sourceUserId) "user" (cleanInput (some e.text)) now)
        (resolveUserId e.sourceUserId) 5).count ⟨"user", cleanInput (some e.text)⟩ :=
      List.count_pos_iff.mpr hmem
    rw [hstruct]
    rw [List.count_cons, List.count_append, List.count_append]
    simp
    omega

/-- A concrete online context used by witnesses: replies always delivered,
no handoff webhook, empty catalog, no embedding, completion succeeds. -/
def witnessCtx : OnlineCtx :=
  ⟨fun _ => true, false, [], [], fun _ => none, fun _ => some "ok", fun _ => ""⟩

/-- Witness for `context_contains_user_twice` at a concrete event. -/
theorem context_contains_user_twice_witness :
    ∃ hist mid, onlineMsgs witnessCtx emptyMem ⟨"message", "text", "hi", some "U"⟩ 0 =
        ⟨"system", systemPromptText⟩ ::
          (hist ++ (mid ++ [⟨"user", cleanInput (some "hi")⟩])) ∧
      hist.getLast? = some ⟨"user", cleanInput (some "hi")⟩ ∧
      2 ≤ (onlineMsgs witnessCtx emptyMem ⟨"message", "text", "hi", some "U"⟩ 0).count
        ⟨"user", cleanInput (some "hi")⟩ :=
  (context_contains_user_twice witnessCtx emptyMem ⟨"message", "text", "hi", some "U"⟩ 0
    rfl rfl (by decide)).2

theorem completion_action_in_trace (nctx : OnlineCtx) (mem : Memory) (e : Event) (now : ℕ)
    (h1 : e.evType = "message") (h2 : e.msgType = "text")
    (hh : handoffNeeded (cleanInput (some e.text)) = false) :
    ∃ ok, Act.completion (onlineMsgs nctx mem e now) ok ∈
      (handleEventOnline nctx mem e now).1 := by
  cases hc : nctx.complete (onlineMsgs nctx mem e now) with
  | none =>
    refine ⟨false, ?_⟩
    rw [handleEventOnline_complete_none nctx mem e now h1 h2 hh hc]
    simp
  | some c =>
    refine ⟨true, ?_⟩
    cases hs : nctx.send (strTake (if c = "" then defaultAnswerText else c) 4900) with
    | true =>
      rw [handleEventOnline_complete_some_ok nctx mem e now c h1 h2 hh hc hs]
      simp
    | false =>
      rw [handleEventOnline_complete_some_fail nctx mem e now c h1 h2 hh hc hs]
      simp

theorem suffix_lastN (z t : List α) (n : ℕ) (hlen : z.length ≤ n) :
    z <:+ lastN n (t ++ z) := by
  rw [lastN, List.length_append, List.drop_append_of_le_length (by omega)]
  exact List.suffix_append _ _

theorem suffix_append_right (s l r : List α) (h : s <:+ l) : s ++ r <:+ l ++ r := by
  obtain ⟨t, rfl⟩ := h
  exact ⟨t, (List.append_assoc t s r).symm⟩

theorem mem_lastN_of_suffix (z l : List α) (n : ℕ) (hz : z <:+ l) (hlen : z.length ≤ n)
    (a : α) (ha : a ∈ z) : a ∈ lastN n l := by
  obtain ⟨t, rfl⟩ := hz
  exact (suffix_lastN z t n hlen).subset ha

theorem pushMemory_self2 (mem : Memory) (u r1 c1 r2 c2 : String) (n1 n2 : ℕ) :
    pushMemory (pushMemory mem u r1 c1 n1) u r2 c2 n2 u =
      lastN 10 ((mem u ++ [⟨r1, c1, n1⟩]) ++ [⟨r2, c2, n2⟩]) := by
  rw [pushMemory_self, pushMemory_self, lastN_append_lastN]

theorem handleEventOnline_mem_other (nctx : OnlineCtx) (mem : Memory) (e : Event) (now : ℕ)
    (h1 : e.evType = "message") (h2 : e.msgType = "text") (u' : String)
    (hne : u' ≠ resolveUserId e.sourceUserId) :
    (handleEventOnline nctx mem e now).2 u' = mem u' := by
  cases hh : handoffNeeded (cleanInput (some e.text)) with
  | true =>
    cases hs : nctx.send handoffReplyText with
    | true =>
      rw [handleEventOnline_handoff_ok nctx mem e now h1 h2 hh hs]
      exact (pushMemory_other _ _ _ _ _ _ hne).trans (pushMemory_other _ _ _ _ _ _ hne)
    | false =>
      rw [handleEventOnline_handoff_fail nctx mem e now h1 h2 hh hs]
      exact pushMemory_other _ _ _ _ _ _ hne
  | false =>
    cases hc : nctx.complete (onlineMsgs nctx mem e now) with
    | none =>
      rw [handleEventOnline_complete_none nctx mem e now h1 h2 hh hc]
      exact pushMemory_other _ _ _ _ _ _ hne
    | some c =>
      cases hs : nctx.send (strTake (if c = "" then defaultAnswerText else c) 4900) with
      | true =>
        rw [handleEventOnline_complete_some_ok nctx mem e now c h1 h2 hh hc hs]
        exact (pushMemory_other _ _ _ _ _ _ hne).trans (pushMemory_other _ _ _ _ _ _ hne)
      | false =>
        rw [handleEventOnline_complete_some_fail nctx mem e now c h1 h2 hh hc hs]
        exact pushMemory_other _ _ _ _ _ _ hne

theorem handleEventOnline_mem_suffix (nctx : OnlineCtx) (mem : Memory) (e : Event) (now : ℕ)
    (h1 : e.evType = "message") (h2 : e.msgType = "text") :
    ∃ z : List Turn, z.length ≤ 1 ∧
      (handleEventOnline nctx mem e now).2 (resolveUserId e.sourceUserId) =
        lastN 10 ((mem (resolveUserId e.sourceUserId) ++
          [⟨"user", cleanInput (some e.text), now⟩]) ++ z) := by
  cases hh : handoffNeeded (cleanInput (some e.text)) with
  | true =>
    cases hs : nctx.send handoffReplyText with
    | true =>
      refine ⟨[⟨"assistant", handoffReplyText, now⟩], by simp, ?_⟩
      rw [handleEventOnline_handoff_ok nctx mem e now h1 h2 hh hs]
      exact pushMemory_self2 mem _ _ _ _ _ _ _
    | false =>
      refine ⟨[], by simp, ?_⟩
      rw [handleEventOnline_handoff_fail nctx mem e now h1 h2 hh hs]
      exact (pushMemory_self mem _ _ _ _).trans (by rw [List.append_nil])
  | false =>
    cases hc : nctx.complete (onlineMsgs nctx mem e now) with
    | none =>
      refine ⟨[], by simp, ?_⟩
      rw [handleEventOnline_complete_none nctx mem e now h1 h2 hh hc]
      exact (pushMemory_self mem _ _ _ _).trans (by rw [List.append_nil])
    | some c =>
      cases hs : nctx.send (strTake (if c = "" then defaultAnswerText else c) 4900) with
      | true =>
        refine ⟨[⟨"assistant", strTake (if c = "" then defaultAnswerText else c) 4900, now⟩],
          by simp, ?_⟩
        rw [handleEventOnline_complete_some_ok nctx mem e now c h1 h2 hh hc hs]
        exact pushMemory_self2 mem _ _ _ _ _ _ _
      | false =>
        refine ⟨[], by simp, ?_⟩
        rw [handleEventOnline_complete_some_fail nctx mem e now c h1 h2 hh hc hs]
        exact (pushMemory_self mem _ _ _ _).trans (by rw [List.append_nil])

/-- C10: a text-message event whose source lacks a userId is handled under
the single literal key `"unknown"`: the resolved key is `"unknown"`, no
other user's memory is touched, and when a second userId-less event
arrives its completion context's recent history contains the first
sender's user turn — userId-less senders share one conversation sequence
that leaks into each other's replies. -/
theorem unknown_user_shared_memory (nctx : OnlineCtx) (mem : Memory) (e1 e2 : Event)
    (now now2 : ℕ)
    (h1a : e1.evType = "message") (h1b : e1.msgType = "text") (h1u : e1.sourceUserId = none)
    (h2a : e2.evType = "message") (h2b : e2.msgType = "text") (h2u : e2.sourceUserId = none)
    (hh2 : handoffNeeded (cleanInput (some e2.text)) = false) :
    resolveUserId e1.sourceUserId = "unknown" ∧
      resolveUserId e2.sourceUserId = "unknown" ∧
      (∀ u', u' ≠ "unknown" → (handleEventOnline nctx mem e1 now).2 u' = mem u') ∧
      (∃ ok, Act.completion (onlineMsgs nctx (handleEventOnline nctx mem e1 now).2 e2 now2) ok ∈
          (handleEventOnline nctx (handleEventOnline nctx mem e1 now).2 e2 now2).1) ∧
      Msg.mk "user" (cleanInput (some e1.text)) ∈
        onlineMsgs nctx (handleEventOnline nctx mem e1 now).2 e2 now2 := by
  have hu1 : resolveUserId e1.sourceUserId = "unknown" := by rw [h1u]; rfl
  have hu2 : resolveUserId e2.sourceUserId = "unknown" := by rw [h2u]; rfl
  refine ⟨hu1, hu2, ?_, ?_, ?_⟩
  · intro u' hne
    exact handleEventOnline_mem_other nctx mem e1 now h1a h1b u' (by rw [hu1]; exact hne)
  · exact completion_action_in_trace nctx _ e2 now2 h2a h2b hh2
  · obtain ⟨z, hz, hm1⟩ := handleEventOnline_mem_suffix nctx mem e1 now h1a h1b
    rw [hu1] at hm1
    set t1 := cleanInput (some e1.text)
    set t2 := cleanInput (some e2.text)
    set M1 := (handleEventOnline nctx mem e1 now).2
    have hself : pushMemory M1 "unknown" "user" t2 now2 "unknown" =
        lastN 10 (M1 "unknown" ++ [⟨"user", t2, now2⟩]) := pushMemory_self _ _ _ _ _
    have hstepA : ([⟨"user", t1, now⟩] ++ z : List Turn) <:+
        ((mem "unknown" ++ [⟨"user", t1, now⟩]) ++ z) :=
      suffix_append_right _ _ _ (List.suffix_append _ _)
    have hstepB : ([⟨"user", t1, now⟩] ++ z : List Turn) <:+ M1 "unknown" := by
      rw [hm1]
      obtain ⟨t, ht⟩ := hstepA
      rw [← ht]
      refine suffix_lastN _ t 10 ?_
      simp only [List.length_append, List.length_cons, List.length_nil]
      omega
    have hstepC := suffix_append_right _ _ [⟨"user", t2, now2⟩] hstepB
    have hmemT : (⟨"user", t1, now⟩ : Turn) ∈
        lastN 5 (M1 "unknown" ++ [⟨"user", t2, now2⟩]) := by
      refine mem_lastN_of_suffix _ _ 5 hstepC ?_ _ ?_
      · simp only [List.length_append, List.length_cons, List.length_nil]
        omega
      · simp
    have hmemM : Msg.mk "user" t1 ∈
        getRecentMessages (pushMemory M1 "unknown" "user" t2 now2) "unknown" 5 := by
      rw [getRecentMessages, hself, lastN_lastN, (rfl : min 5 10 = 5)]
      exact List.mem_map.mpr ⟨⟨"user", t1, now⟩, hmemT, rfl⟩
    rw [onlineMsgs, hu2, buildContext]
    simp only [List.mem_append, List.mem_cons, List.singleton_append]
    tauto

/-- Witness for `unknown_user_shared_memory` at two concrete userId-less
events. -/
theorem unknown_user_shared_memory_witness :
    Msg.mk "user" (cleanInput (some "hello")) ∈
      onlineMsgs witnessCtx
        (handleEventOnline witnessCtx emptyMem ⟨"message", "text", "hello", none⟩ 0).2
        ⟨"message", "text", "again", none⟩ 1 :=
  (unknown_user_shared_memory witnessCtx emptyMem ⟨"message", "text", "hello", none⟩
    ⟨"message", "text", "again", none⟩ 0 1 rfl rfl rfl rfl rfl rfl (by decide)).2.2.2.2

/-- The stored answer of the README's quote-flow FAQ entry. -/
def answer8 : String := "請提供公司名稱、人數、需求模組…我們 1-2 個工作天回覆。"

/-- The single-entry quote-flow catalog of the C8 scenario. -/
def faq8 : List FaqEntry := [⟨"報價流程？", answer8⟩]

theorem score8 : scoreSimilarity "請問報價流程" ("報價流程？" ++ "\n" ++ answer8) = 1 / 8 := by
  have h1 : (tokenize "請問報價流程").length = 7 := by decide
  have h2 : (tokenize ("報價流程？" ++ "\n" ++ answer8)).length = 38 := by decide
  have h3 : ((tokenize "請問報價流程").filter
      (fun w => (tokenize ("報價流程？" ++ "\n" ++ answer8)).contains w)).length = 5 := by
    decide
  have h4 : (bonusWords.filter (fun bw => (tokenize "請問報價流程").contains bw &&
      (tokenize ("報價流程？" ++ "\n" ++ answer8)).contains bw)).length = 0 := by decide
  simp only [scoreSimilarity, h1, h2, h3, h4]
  norm_num

theorem search8 : searchFaqLocal faq8 "請問報價流程" 3 = [⟨"報價流程？", answer8, 1 / 8⟩] := by
  have hscores : offlineScores faq8 "請問報價流程" =
      [⟨0, scoreSimilarity "請問報價流程" ("報價流程？" ++ "\n" ++ answer8)⟩] := rfl
  rw [searchFaqLocal, if_neg (by decide)]
  rw [hscores, score8]
  have hlt : (8 : ℚ) / 100 < 1 / 8 := by norm_num
  show toHits faq8 (((sortDesc [⟨0, 1 / 8⟩]).take 3).filter _) = _
  have hsort : sortDesc [(⟨0, 1 / 8⟩ : Scored ℚ)] = [⟨0, 1 / 8⟩] := rfl
  rw [hsort]
  simp only [List.take, List.filter_cons, decide_eq_true_eq, List.filter_nil, if_pos hlt]
  rfl

/-- C8: in offline mode with the single-entry quote-flow catalog, the
query `"請問報價流程"` retrieves that entry with lexical score `1/8`
(strictly above the 0.08 threshold), and the handled event replies with
`【參考回答】` followed by the stored answer, recording the
`faq-offline` route. -/
theorem offline_quote_scenario :
    searchFaqLocal faq8 "請問報價流程" 3 = [⟨"報價流程？", answer8, 1 / 8⟩] ∧
      (8 : ℚ) / 100 < 1 / 8 ∧
      (handleEventOffline ⟨fun _ => true, false, faq8⟩ emptyMem
          ⟨"message", "text", "請問報價流程", some "U"⟩ 0).1 =
        [.logIn "U" "請問報價流程" 0,
         .push "U" "user" "請問報價流程" 0,
         .search "請問報價流程",
         .reply ("【參考回答】\n" ++ answer8) true,
         .push "U" "assistant" ("【參考回答】\n" ++ answer8) 0,
         .logOut "U" "faq-offline" ("【參考回答】\n" ++ answer8) 0] := by
  refine ⟨search8, by norm_num, ?_⟩
  have hclean : cleanInput (some "請問報價流程") = "請問報價流程" := by decide
  have hres : resolveUserId (some "U") = "U" := by decide
  have hans : offlineAnswer [⟨"報價流程？", answer8, (1 : ℚ) / 8⟩] =
      "【參考回答】\n" ++ answer8 := by decide
  have hshape := handleEventOffline_faq_ok ⟨fun _ => true, false, faq8⟩ emptyMem
    ⟨"message", "text", "請問報價流程", some "U"⟩ 0 rfl rfl (by decide) rfl
  rw [hshape]
  simp [hclean, hres, search8]
  rw [show ((8 : ℚ)⁻¹) = 1 / 8 from (one_div (8 : ℚ)).symm, hans]
